import Mathlib

/-!
Verification of the z-factor repository (Dranchuk–Abou-Kassem compressibility
factor solvers).  The repository contains three bisection variants:

* `src/main.c` (`calcZfactor_DAK`, `fun_DAK`) — here the `main` suffix;
* `src/unnamed/part_000`, first file (`calcZfactor_DAK` taking raw `P`, `T`,
  `sg`; `coeff_C3`; `fun_DAK` with a coefficient array) — here the `v1` suffix;
* `src/unnamed/part_000`, second file (`calcZfactor_DAK` taking `Ppr`, `Tpr`;
  `coeff_C3`; `fun_DAK`) — here the `v2` suffix.

Doubles are modelled as real numbers with exact literal semantics, `exp` as
`Real.exp`, and the `for` loops as fuel-indexed recursions where the fuel at
the entry call equals `maxIter` minus the loop counter `i`.
-/

noncomputable section

namespace ZFDAK

/-- Result of one solver call: the returned status code, the value left in the
caller's `z`, the loop counter at exit, the last computed bracket width
(`convergence`), and whether the max-iteration warning was printed. -/
structure SolveResult where
  err : Int
  z : ℝ
  iters : ℕ
  conv : ℝ
  warn : Bool

/-- Coefficient A[0] of the Dranchuk equation (part_000, first file). -/
def A0 : ℝ := 0.32650

/-- Coefficient A[1]. -/
def A1 : ℝ := -1.07000

/-- Coefficient A[2]. -/
def A2 : ℝ := -0.5339

/-- Coefficient A[3]. -/
def A3 : ℝ := 0.01569

/-- Coefficient A[4]. -/
def A4 : ℝ := -0.05165

/-- Coefficient A[5]. -/
def A5 : ℝ := 0.54750

/-- Coefficient A[6]. -/
def A6 : ℝ := -0.7361

/-- Coefficient A[7]. -/
def A7 : ℝ := 0.18440

/-- Coefficient A[8]. -/
def A8 : ℝ := 0.10560

/-- Coefficient A[9]. -/
def A9 : ℝ := 0.61340

/-- Coefficient A[10]. -/
def A10 : ℝ := 0.7210

/-- The temporary `invTpr = 1.0 / Tpr` shared by all variants. -/
def invTpr (Tpr : ℝ) : ℝ := 1.0 / Tpr

/-- The per-solve constant `Rr_z = 0.27*Ppr * invTpr` of main.c and the second
part_000 variant; the first variant computes the same product inline. -/
def Rr_z (Ppr Tpr : ℝ) : ℝ := 0.27 * Ppr * invTpr Tpr

/-- The reduced density `Rr = Rr_z / z` evaluated at a trial `z`. -/
def Rr_of (Ppr Tpr z : ℝ) : ℝ := Rr_z Ppr Tpr / z

/-- The temporary `tmp = -0.7361 * invTpr + 0.1844 * tmp` (after `tmp` held
`invTpr*invTpr`) of main.c. -/
def tmp2_main (Tpr : ℝ) : ℝ :=
  -0.7361 * invTpr Tpr + 0.1844 * (invTpr Tpr * invTpr Tpr)

/-- The folded constant `C` that main.c computes once before its loop from
`Rr_z` (lines 42-46 of src/main.c). -/
def C_main (Ppr Tpr : ℝ) : ℝ :=
  (0.3265 - 1.07 * invTpr Tpr
    - 0.5339 * (invTpr Tpr * invTpr Tpr) * invTpr Tpr
    + 0.01569 * ((invTpr Tpr * invTpr Tpr) * (invTpr Tpr * invTpr Tpr))
    - 0.05165 * ((invTpr Tpr * invTpr Tpr) * (invTpr Tpr * invTpr Tpr)) * invTpr Tpr)
    * Rr_z Ppr Tpr
  + (1.0 + ((0.5475 + tmp2_main Tpr)
      - (0.1056 * tmp2_main Tpr) * Rr_z Ppr Tpr * Rr_z Ppr Tpr * Rr_z Ppr Tpr)
      * Rr_z Ppr Tpr * Rr_z Ppr Tpr)

/-- main.c `fun_DAK(C, Rr, Tpr, z)`: the residual `z - C - C2` where `C2` is
the exponential Dranchuk term recomputed from `Rr` (lines 88-96). -/
def fun_DAK_main (C Rr Tpr z : ℝ) : ℝ :=
  z - C - 0.6134 * (1.0 + 0.7210 * (Rr * Rr)) * (Rr * Rr) / (Tpr * Tpr * Tpr)
    * Real.exp (-(0.7210 * (Rr * Rr)))

/-- The residual main.c's loop evaluates at a trial `z`. -/
def residual_main (Ppr Tpr z : ℝ) : ℝ :=
  fun_DAK_main (C_main Ppr Tpr) (Rr_of Ppr Tpr z) Tpr z

/-- part_000 `coeff_C3(A9, A10, Rr, Tpr)` (first file, lines 132-137). -/
def coeff_C3 (A9v A10v Rr Tpr : ℝ) : ℝ :=
  A9v * (1.0 + A10v * (Rr * Rr)) * (Rr * Rr) / (Tpr * Tpr * Tpr)
    * Real.exp (-(A10v * (Rr * Rr)))

/-- part_000 `fun_DAK(C, Rr, z)`: the Dranchuk residual
`z - 1 - C0*Rr - C1*Rr^2 + C2*Rr^5 - C3`, with the coefficient array passed
as four scalars (first file lines 139-142, second file lines 263-268). -/
def fun_DAK_p (c0 c1 c2 c3 Rr z : ℝ) : ℝ :=
  z - 1.0 - c0 * Rr - c1 * (Rr * Rr)
    + c2 * ((Rr * Rr) * (Rr * Rr) * Rr) - c3

/-- `C[0]` of the first part_000 variant (array-coefficient style). -/
def C0_v1 (Tpr : ℝ) : ℝ :=
  A0 + A1 * invTpr Tpr + A2 * (invTpr Tpr * invTpr Tpr) * invTpr Tpr
    + A3 * ((invTpr Tpr * invTpr Tpr) * (invTpr Tpr * invTpr Tpr))
    + A4 * ((invTpr Tpr * invTpr Tpr) * (invTpr Tpr * invTpr Tpr)) * invTpr Tpr

/-- The reassigned temporary `tmp = A[6]*invTpr + A[7]*tmp` of the first
part_000 variant. -/
def tmp2_v1 (Tpr : ℝ) : ℝ := A6 * invTpr Tpr + A7 * (invTpr Tpr * invTpr Tpr)

/-- `C[1]` of the first part_000 variant. -/
def C1_v1 (Tpr : ℝ) : ℝ := A5 + tmp2_v1 Tpr

/-- `C[2]` of the first part_000 variant. -/
def C2_v1 (Tpr : ℝ) : ℝ := A8 * tmp2_v1 Tpr

/-- The residual the first part_000 variant evaluates at a trial `z`
(`C[3] = coeff_C3(A[9], A[10], Rr, Tpr)` then `fun_DAK(C, Rr, z)`). -/
def residual_v1 (Ppr Tpr z : ℝ) : ℝ :=
  fun_DAK_p (C0_v1 Tpr) (C1_v1 Tpr) (C2_v1 Tpr)
    (coeff_C3 A9 A10 (Rr_of Ppr Tpr z) Tpr) (Rr_of Ppr Tpr z) z

/-- `C[0]` of the second part_000 variant (literal-coefficient style). -/
def C0_v2 (Tpr : ℝ) : ℝ :=
  0.3265 - 1.07 * invTpr Tpr
    - 0.5339 * (invTpr Tpr * invTpr Tpr) * invTpr Tpr
    + 0.01569 * ((invTpr Tpr * invTpr Tpr) * (invTpr Tpr * invTpr Tpr))
    - 0.05165 * ((invTpr Tpr * invTpr Tpr) * (invTpr Tpr * invTpr Tpr)) * invTpr Tpr

/-- The reassigned temporary `tmp` of the second part_000 variant. -/
def tmp2_v2 (Tpr : ℝ) : ℝ :=
  -0.7361 * invTpr Tpr + 0.1844 * (invTpr Tpr * invTpr Tpr)

/-- `C[1]` of the second part_000 variant. -/
def C1_v2 (Tpr : ℝ) : ℝ := 0.5475 + tmp2_v2 Tpr

/-- `C[2]` of the second part_000 variant. -/
def C2_v2 (Tpr : ℝ) : ℝ := 0.1056 * tmp2_v2 Tpr

/-- part_000 second file `coeff_C3(Rr, Tpr)` (lines 255-261). -/
def coeff_C3_v2 (Rr Tpr : ℝ) : ℝ :=
  0.6134 * (1.0 + 0.7210 * (Rr * Rr)) * (Rr * Rr) / (Tpr * Tpr * Tpr)
    * Real.exp (-(0.7210 * (Rr * Rr)))

/-- The residual the second part_000 variant evaluates at a trial `z`. -/
def residual_v2 (Ppr Tpr z : ℝ) : ℝ :=
  fun_DAK_p (C0_v2 Tpr) (C1_v2 Tpr) (C2_v2 Tpr)
    (coeff_C3_v2 (Rr_of Ppr Tpr z) Tpr) (Rr_of Ppr Tpr z) z

/-- Convergence tolerance `epsilon = 2.0e-6` of src/main.c (line 51). -/
def epsilon_main : ℝ := 2.0e-6

/-- Convergence tolerance `epsilon = 2 * 10e-6` of the first part_000 variant
(line 97). -/
def epsilon_v1 : ℝ := 2 * 10e-6

/-- Convergence tolerance `epsilon = 2 * 10e-6` of the second part_000 variant
(line 216). -/
def epsilon_v2 : ℝ := 2 * 10e-6

/-- The bisection loop of main.c (lines 58-76) and of the second part_000
variant (lines 224-243): branch on the sign of the midpoint residual.  The
state is the remaining fuel (`maxIter - i`), the counter `i`, the bracket
`a`, `b`, and the variables `zn` and `convergence` carried across iterations
so that the post-loop code can read them.  The exit result models
`*z = zn; printf(iter, convergence); if (i == maxIter) warn; return 0`, and
the defensive branch models `return -2` (which leaves the caller's `z` at its
initial value `0.0`). -/
def bisectLoop (f : ℝ → ℝ) (eps : ℝ) (M : ℕ) :
    ℕ → ℕ → ℝ → ℝ → ℝ → ℝ → SolveResult
  | 0, i, _, _, zn, cv => ⟨0, zn, i, cv, decide (i = M)⟩
  | fuel+1, i, a, b, _, _ =>
    if |b - a| ≤ eps then ⟨0, (a + b) * 0.5, i, |b - a|, decide (i = M)⟩
    else if f ((a + b) * 0.5) > 0 then
      bisectLoop f eps M fuel (i + 1) a ((a + b) * 0.5) ((a + b) * 0.5) (|b - a|)
    else if f ((a + b) * 0.5) < 0 then
      bisectLoop f eps M fuel (i + 1) ((a + b) * 0.5) b ((a + b) * 0.5) (|b - a|)
    else if f ((a + b) * 0.5) = 0 then ⟨0, (a + b) * 0.5, i, |b - a|, decide (i = M)⟩
    else ⟨-2, 0, i, |b - a|, false⟩

/-- The bisection loop of the first part_000 variant (lines 101-122): it
stores the endpoint residuals `fa`, `fb` and branches on the products
`fa*fz`, `fb*fz`.  `*z` is assigned the midpoint at the top of every
iteration, so the carried output variable `z` is the last midpoint and is
also returned by the defensive `return -2`. -/
def bisectLoopFab (f : ℝ → ℝ) (eps : ℝ) (M : ℕ) :
    ℕ → ℕ → ℝ → ℝ → ℝ → ℝ → ℝ → ℝ → SolveResult
  | 0, i, _, _, _, _, z, cv => ⟨0, z, i, cv, decide (i = M)⟩
  | fuel+1, i, a, b, fa, fb, _, _ =>
    if |b - a| ≤ eps then ⟨0, (a + b) * 0.5, i, |b - a|, decide (i = M)⟩
    else if fa * f ((a + b) * 0.5) < 0 then
      bisectLoopFab f eps M fuel (i + 1) a ((a + b) * 0.5) fa (f ((a + b) * 0.5))
        ((a + b) * 0.5) (|b - a|)
    else if fb * f ((a + b) * 0.5) < 0 then
      bisectLoopFab f eps M fuel (i + 1) ((a + b) * 0.5) b (f ((a + b) * 0.5)) fb
        ((a + b) * 0.5) (|b - a|)
    else if f ((a + b) * 0.5) = 0 then ⟨0, (a + b) * 0.5, i, |b - a|, decide (i = M)⟩
    else ⟨-2, (a + b) * 0.5, i, |b - a|, false⟩

/-- src/main.c `calcZfactor_DAK` with the loop started from a general bracket
`[a, b]`; the shipped entry point fixes `a = 0.6`, `b = 1.3`. -/
def mainSolveFrom (Ppr Tpr a b : ℝ) : SolveResult :=
  bisectLoop (residual_main Ppr Tpr) epsilon_main 100 100 0 a b 0 0

/-- src/main.c `calcZfactor_DAK(Ppr, Tpr, &z)` (lines 36-86). -/
def calcZfactor_DAK_main (Ppr Tpr : ℝ) : SolveResult :=
  mainSolveFrom Ppr Tpr 0.6 1.3

/-- The second part_000 variant `calcZfactor_DAK(Ppr, Tpr, &z)`
(lines 201-253). -/
def calcZfactor_DAK_v2 (Ppr Tpr : ℝ) : SolveResult :=
  bisectLoop (residual_v2 Ppr Tpr) epsilon_v2 100 100 0 0.6 1.3 0 0

/-- The core of the first part_000 variant after `Ppr`, `Tpr` have been
derived (lines 59-129): evaluate the endpoint residuals at `a = 1e-2` and
`b = 4.0`, fail with `-1` when they share sign, return an endpoint whose
residual is exactly zero, otherwise run the `fa`/`fb` bisection loop. -/
def calcZfactor_DAK_v1_core (Ppr Tpr : ℝ) : SolveResult :=
  if residual_v1 Ppr Tpr 1e-2 * residual_v1 Ppr Tpr 4.0 > 0 then ⟨-1, 0, 0, 0, false⟩
  else if residual_v1 Ppr Tpr 1e-2 = 0 then ⟨0, 1e-2, 0, 0, false⟩
  else if residual_v1 Ppr Tpr 4.0 = 0 then ⟨0, 4.0, 0, 0, false⟩
  else
    bisectLoopFab (residual_v1 Ppr Tpr) epsilon_v1 100 100 0 1e-2 4.0
      (residual_v1 Ppr Tpr 1e-2) (residual_v1 Ppr Tpr 4.0) 0 0

/-- Pseudocritical pressure of the first part_000 variant (line 49). -/
def Ppc_v1 (sg : ℝ) : ℝ := 756.8 - 131.0 * sg - 3.60 * sg * sg

/-- Pseudocritical temperature of the first part_000 variant (line 50). -/
def Tpc_v1 (sg : ℝ) : ℝ := (169.2 + 349.5 * sg - 74.0 * sg * sg) * 5.0 / 9.0

/-- Pseudo-reduced pressure of the first part_000 variant (line 55). -/
def Ppr_of_v1 (P sg : ℝ) : ℝ := P * 101325 / 6894.757293168 / Ppc_v1 sg

/-- Pseudo-reduced temperature of the first part_000 variant (line 56). -/
def Tpr_of_v1 (T sg : ℝ) : ℝ := (T + 273.15) / Tpc_v1 sg

/-- The first part_000 variant `calcZfactor_DAK(P, T, sg, &z)` (lines 44-130):
derive `(Ppr, Tpr)` from raw pressure, temperature and specific gravity, then
solve. -/
def calcZfactor_DAK_v1 (P T sg : ℝ) : SolveResult :=
  calcZfactor_DAK_v1_core (Ppr_of_v1 P sg) (Tpr_of_v1 T sg)

/-- Pseudocritical pressure computed by the test of src/main.c (line 109). -/
def Ppc_maintest (sg : ℝ) : ℝ := 756.8 - 131.0 * sg - 3.60 * sg * sg

/-- Pseudocritical temperature computed by the test of src/main.c (line 110). -/
def Tpc_maintest (sg : ℝ) : ℝ := (169.2 + 349.5 * sg - 74.0 * sg * sg) * 5.0 / 9.0

/-- Pseudo-reduced pressure computed by the test of src/main.c (line 115). -/
def Ppr_of_maintest (P sg : ℝ) : ℝ := P * 101325 / 6894.757293168 / Ppc_maintest sg

/-- Pseudo-reduced temperature computed by the test of src/main.c (line 116). -/
def Tpr_of_maintest (T sg : ℝ) : ℝ := (T + 273.15) / Tpc_maintest sg

/-- Pseudocritical pressure of the second part_000 `main` (line 179). -/
def Ppc_v2m (sg : ℝ) : ℝ := 756.8 - 131.0 * sg - 3.60 * sg * sg

/-- Pseudocritical temperature of the second part_000 `main` (line 180); the
Rankine-to-Kelvin conversion is pre-multiplied into rounded decimal
coefficients. -/
def Tpc_v2m (sg : ℝ) : ℝ := 94.00000752 + 194.1666822 * sg - 41.1111144 * sg * sg

/-- Pseudo-reduced pressure of the second part_000 `main` (line 185); the
atm-to-psia factor appears as a rounded 32-digit decimal literal. -/
def Ppr_of_v2m (P sg : ℝ) : ℝ :=
  P * 14.695948775514218902863070110439 / Ppc_v2m sg

/-- Pseudo-reduced temperature of the second part_000 `main` (line 186). -/
def Tpr_of_v2m (T sg : ℝ) : ℝ := (T + 273.15) / Tpc_v2m sg

/-- Pseudocritical pressure exactly as the spec words it:
`Ppc = 756.8 - 131*sg - 3.6*sg^2` (psia). -/
def Ppc_specside (sg : ℝ) : ℝ := 756.8 - 131 * sg - 3.6 * (sg * sg)

/-- Pseudocritical temperature exactly as the spec words it:
`Tpc = (169.2 + 349.5*sg - 74*sg^2)*5/9` (K). -/
def Tpc_specside (sg : ℝ) : ℝ := (169.2 + 349.5 * sg - 74 * (sg * sg)) * (5 / 9)

/-- Pseudo-reduced pressure exactly as the spec words it:
`Ppr = P_atm * (atm-to-psia) / Ppc` with the exact factor `101325/6894.757293168`. -/
def Ppr_specside (P sg : ℝ) : ℝ := P * (101325 / 6894.757293168) / Ppc_specside sg

/-- Pseudo-reduced temperature exactly as the spec words it:
`Tpr = (T_celsius + 273.15) / Tpc`. -/
def Tpr_specside (T sg : ℝ) : ℝ := (T + 273.15) / Tpc_specside sg

/-- Unfolding equation for `bisectLoop` at exhausted fuel. -/
theorem bisectLoop_zero (f : ℝ → ℝ) (eps : ℝ) (M i : ℕ) (a b zn cv : ℝ) :
    bisectLoop f eps M 0 i a b zn cv = ⟨0, zn, i, cv, decide (i = M)⟩ := rfl

/-- Unfolding equation for one iteration of `bisectLoop`. -/
theorem bisectLoop_succ (f : ℝ → ℝ) (eps : ℝ) (M fuel i : ℕ) (a b zn cv : ℝ) :
    bisectLoop f eps M (fuel + 1) i a b zn cv =
      if |b - a| ≤ eps then ⟨0, (a + b) * 0.5, i, |b - a|, decide (i = M)⟩
      else if f ((a + b) * 0.5) > 0 then
        bisectLoop f eps M fuel (i + 1) a ((a + b) * 0.5) ((a + b) * 0.5) (|b - a|)
      else if f ((a + b) * 0.5) < 0 then
        bisectLoop f eps M fuel (i + 1) ((a + b) * 0.5) b ((a + b) * 0.5) (|b - a|)
      else if f ((a + b) * 0.5) = 0 then
        ⟨0, (a + b) * 0.5, i, |b - a|, decide (i = M)⟩
      else ⟨-2, 0, i, |b - a|, false⟩ := rfl

/-- Unfolding equation for `bisectLoopFab` at exhausted fuel. -/
theorem bisectLoopFab_zero (f : ℝ → ℝ) (eps : ℝ) (M i : ℕ) (a b fa fb z cv : ℝ) :
    bisectLoopFab f eps M 0 i a b fa fb z cv = ⟨0, z, i, cv, decide (i = M)⟩ := rfl

/-- Unfolding equation for one iteration of `bisectLoopFab`. -/
theorem bisectLoopFab_succ (f : ℝ → ℝ) (eps : ℝ) (M fuel i : ℕ) (a b fa fb z cv : ℝ) :
    bisectLoopFab f eps M (fuel + 1) i a b fa fb z cv =
      if |b - a| ≤ eps then ⟨0, (a + b) * 0.5, i, |b - a|, decide (i = M)⟩
      else if fa * f ((a + b) * 0.5) < 0 then
        bisectLoopFab f eps M fuel (i + 1) a ((a + b) * 0.5) fa (f ((a + b) * 0.5))
          ((a + b) * 0.5) (|b - a|)
      else if fb * f ((a + b) * 0.5) < 0 then
        bisectLoopFab f eps M fuel (i + 1) ((a + b) * 0.5) b (f ((a + b) * 0.5)) fb
          ((a + b) * 0.5) (|b - a|)
      else if f ((a + b) * 0.5) = 0 then
        ⟨0, (a + b) * 0.5, i, |b - a|, decide (i = M)⟩
      else ⟨-2, (a + b) * 0.5, i, |b - a|, false⟩ := rfl

/-- Over the reals the sign trichotomy is exhaustive, so the sign-branching
loop can only ever exit through one of its `return 0` paths. -/
theorem bisectLoop_err_eq_zero (f : ℝ → ℝ) (eps : ℝ) (M fuel i : ℕ) (a b zn cv : ℝ) :
    (bisectLoop f eps M fuel i a b zn cv).err = 0 := by
  induction fuel generalizing i a b zn cv with
  | zero => rfl
  | succ fuel ih =>
    rw [bisectLoop_succ]
    split_ifs with h1 h2 h3 h4
    · rfl
    · exact ih (i + 1) a ((a + b) * 0.5) ((a + b) * 0.5) (|b - a|)
    · exact ih (i + 1) ((a + b) * 0.5) b ((a + b) * 0.5) (|b - a|)
    · rfl
    · exact absurd (le_antisymm (not_lt.mp h2) (not_lt.mp h3)) h4

/-- While the stored endpoint residuals have opposite signs, the product
branching of `bisectLoopFab` can only exit through a `return 0` path: its
defensive branch would force `fa*fb ≥ 0`. -/
theorem bisectLoopFab_err_eq_zero (f : ℝ → ℝ) (eps : ℝ) (M fuel i : ℕ)
    (a b fa fb z cv : ℝ) (hab : fa * fb < 0) :
    (bisectLoopFab f eps M fuel i a b fa fb z cv).err = 0 := by
  induction fuel generalizing i a b fa fb z cv with
  | zero => rfl
  | succ fuel ih =>
    rw [bisectLoopFab_succ]
    split_ifs with h1 h2 h3 h4
    · rfl
    · exact ih (i + 1) a ((a + b) * 0.5) fa (f ((a + b) * 0.5)) ((a + b) * 0.5) (|b - a|) h2
    · refine ih (i + 1) ((a + b) * 0.5) b (f ((a + b) * 0.5)) fb ((a + b) * 0.5) (|b - a|) ?_
      calc f ((a + b) * 0.5) * fb = fb * f ((a + b) * 0.5) := by ring
      _ < 0 := h3
    · rfl
    · exfalso
      have h5 : 0 ≤ fa * f ((a + b) * 0.5) * (fb * f ((a + b) * 0.5)) :=
        mul_nonneg (not_lt.mp h2) (not_lt.mp h3)
      have h6 : fa * f ((a + b) * 0.5) * (fb * f ((a + b) * 0.5)) =
          fa * fb * (f ((a + b) * 0.5) * f ((a + b) * 0.5)) := by ring
      have h7 : 0 < f ((a + b) * 0.5) * f ((a + b) * 0.5) := mul_self_pos.mpr h4
      nlinarith

/-- The exponential Dranchuk term that `coeff_C3` computes is nonnegative for
positive `Tpr`. -/
theorem coeff_C3_A_nonneg (Rr Tpr : ℝ) (hT : 0 < Tpr) : 0 ≤ coeff_C3 A9 A10 Rr Tpr := by
  have hT3 : 0 < Tpr * Tpr * Tpr := mul_pos (mul_pos hT hT) hT
  have hrr : (0:ℝ) ≤ Rr * Rr := mul_self_nonneg Rr
  have h1 : (0:ℝ) ≤ A9 * (1.0 + A10 * (Rr * Rr)) * (Rr * Rr) := by
    unfold A9 A10
    have h2 : (0:ℝ) ≤ 1.0 + 0.7210 * (Rr * Rr) := by linarith
    have h3 : (0:ℝ) ≤ (0.61340 : ℝ) := by norm_num
    exact mul_nonneg (mul_nonneg h3 h2) hrr
  unfold coeff_C3
  exact mul_nonneg (div_nonneg h1 hT3.le) (Real.exp_pos (-(A10 * (Rr * Rr)))).le

/-- The residual of main.c is bounded above by `z - C` for positive `Tpr`,
because the recomputed exponential term is nonnegative. -/
theorem fun_DAK_main_le (C Rr Tpr z : ℝ) (hT : 0 < Tpr) : fun_DAK_main C Rr Tpr z ≤ z - C := by
  have hT3 : 0 < Tpr * Tpr * Tpr := mul_pos (mul_pos hT hT) hT
  have hrr : (0:ℝ) ≤ Rr * Rr := mul_self_nonneg Rr
  have h1 : (0:ℝ) ≤ 0.6134 * (1.0 + 0.7210 * (Rr * Rr)) * (Rr * Rr) := by
    have h2 : (0:ℝ) ≤ 1.0 + 0.7210 * (Rr * Rr) := by linarith
    have h3 : (0:ℝ) ≤ (0.6134 : ℝ) := by norm_num
    exact mul_nonneg (mul_nonneg h3 h2) hrr
  have h : 0 ≤ 0.6134 * (1.0 + 0.7210 * (Rr * Rr)) * (Rr * Rr) / (Tpr * Tpr * Tpr)
      * Real.exp (-(0.7210 * (Rr * Rr))) :=
    mul_nonneg (div_nonneg h1 hT3.le) (Real.exp_pos (-(0.7210 * (Rr * Rr)))).le
  unfold fun_DAK_main
  linarith

/-- The residual of the first part_000 variant is bounded above by its
polynomial part for positive `Tpr`. -/
theorem residual_v1_le (Ppr Tpr z : ℝ) (hT : 0 < Tpr) :
    residual_v1 Ppr Tpr z ≤
      fun_DAK_p (C0_v1 Tpr) (C1_v1 Tpr) (C2_v1 Tpr) 0 (Rr_of Ppr Tpr z) z := by
  unfold residual_v1 fun_DAK_p
  have h := coeff_C3_A_nonneg (Rr_of Ppr Tpr z) Tpr hT
  linarith

/-- With `Ppr = 0` the reduced density vanishes and the main.c residual
collapses exactly to `z - 1`. -/
theorem residual_main_ppr0 (Tpr z : ℝ) : residual_main 0 Tpr z = z - 1 := by
  unfold residual_main fun_DAK_main C_main Rr_of Rr_z tmp2_main invTpr
  norm_num

/-- With `Ppr = 0` the residual of the first part_000 variant collapses
exactly to `z - 1`. -/
theorem residual_v1_ppr0 (Tpr z : ℝ) : residual_v1 0 Tpr z = z - 1 := by
  unfold residual_v1 fun_DAK_p coeff_C3 Rr_of Rr_z invTpr
  norm_num

/-- With `Ppr = 0` the residual of the second part_000 variant collapses
exactly to `z - 1`. -/
theorem residual_v2_ppr0 (Tpr z : ℝ) : residual_v2 0 Tpr z = z - 1 := by
  unfold residual_v2 fun_DAK_p coeff_C3_v2 Rr_of Rr_z invTpr
  norm_num

/-- The bracket width halves at every iteration, so once the width fits below
`eps * 2 ^ k` the loop performs at most `k` more iterations before it exits. -/
theorem bisectLoop_iters_le (f : ℝ → ℝ) (eps : ℝ) (M : ℕ) (k : ℕ) :
    ∀ (fuel i : ℕ) (a b zn cv : ℝ), |b - a| ≤ eps * 2 ^ k →
      (bisectLoop f eps M fuel i a b zn cv).iters ≤ i + k := by
  induction k with
  | zero =>
    intro fuel i a b zn cv hw
    cases fuel with
    | zero => simp [bisectLoop_zero]
    | succ fuel =>
      rw [bisectLoop_succ, if_pos (by simpa using hw)]
      simp
  | succ k ih =>
    intro fuel i a b zn cv hw
    have hw2 : |b - a| / 2 ≤ eps * 2 ^ k := by
      rw [pow_succ] at hw
      linarith
    have hmida : |(a + b) * 0.5 - a| ≤ eps * 2 ^ k := by
      rw [(by ring : (a + b) * 0.5 - a = (b - a) / 2), abs_div]
      simpa using hw2
    have hmidb : |b - (a + b) * 0.5| ≤ eps * 2 ^ k := by
      rw [(by ring : b - (a + b) * 0.5 = (b - a) / 2), abs_div]
      simpa using hw2
    cases fuel with
    | zero => simp [bisectLoop_zero]
    | succ fuel =>
      rw [bisectLoop_succ]
      split_ifs with h1 h2 h3 h4
      · simp
      · have := ih fuel (i + 1) a ((a + b) * 0.5) ((a + b) * 0.5) (|b - a|) hmida
        omega
      · have := ih fuel (i + 1) ((a + b) * 0.5) b ((a + b) * 0.5) (|b - a|) hmidb
        omega
      · simp
      · simp

/-- Same width bound for the `fa`/`fb` loop of the first part_000 variant. -/
theorem bisectLoopFab_iters_le (f : ℝ → ℝ) (eps : ℝ) (M : ℕ) (k : ℕ) :
    ∀ (fuel i : ℕ) (a b fa fb z cv : ℝ), |b - a| ≤ eps * 2 ^ k →
      (bisectLoopFab f eps M fuel i a b fa fb z cv).iters ≤ i + k := by
  induction k with
  | zero =>
    intro fuel i a b fa fb z cv hw
    cases fuel with
    | zero => simp [bisectLoopFab_zero]
    | succ fuel =>
      rw [bisectLoopFab_succ, if_pos (by simpa using hw)]
      simp
  | succ k ih =>
    intro fuel i a b fa fb z cv hw
    have hw2 : |b - a| / 2 ≤ eps * 2 ^ k := by
      rw [pow_succ] at hw
      linarith
    have hmida : |(a + b) * 0.5 - a| ≤ eps * 2 ^ k := by
      rw [(by ring : (a + b) * 0.5 - a = (b - a) / 2), abs_div]
      simpa using hw2
    have hmidb : |b - (a + b) * 0.5| ≤ eps * 2 ^ k := by
      rw [(by ring : b - (a + b) * 0.5 = (b - a) / 2), abs_div]
      simpa using hw2
    cases fuel with
    | zero => simp [bisectLoopFab_zero]
    | succ fuel =>
      rw [bisectLoopFab_succ]
      split_ifs with h1 h2 h3 h4
      · simp
      · have := ih fuel (i + 1) a ((a + b) * 0.5) fa (f ((a + b) * 0.5))
          ((a + b) * 0.5) (|b - a|) hmida
        omega
      · have := ih fuel (i + 1) ((a + b) * 0.5) b (f ((a + b) * 0.5)) fb
          ((a + b) * 0.5) (|b - a|) hmidb
        omega
      · simp
      · simp

/-- The warning flag can only be raised together with an exit counter equal
to the iteration cap. -/
theorem bisectLoop_warn_imp (f : ℝ → ℝ) (eps : ℝ) (M : ℕ) :
    ∀ (fuel i : ℕ) (a b zn cv : ℝ),
      (bisectLoop f eps M fuel i a b zn cv).warn = true →
      (bisectLoop f eps M fuel i a b zn cv).iters = M := by
  intro fuel
  induction fuel with
  | zero =>
    intro i a b zn cv h
    rw [bisectLoop_zero] at h ⊢
    exact of_decide_eq_true h
  | succ fuel ih =>
    intro i a b zn cv h
    rw [bisectLoop_succ] at h ⊢
    split_ifs at h ⊢ with h1 h2 h3 h4
    · exact of_decide_eq_true h
    · exact ih (i + 1) a ((a + b) * 0.5) ((a + b) * 0.5) (|b - a|) h
    · exact ih (i + 1) ((a + b) * 0.5) b ((a + b) * 0.5) (|b - a|) h
    · exact of_decide_eq_true h

/-- The warning flag of the `fa`/`fb` loop can only be raised at the cap. -/
theorem bisectLoopFab_warn_imp (f : ℝ → ℝ) (eps : ℝ) (M : ℕ) :
    ∀ (fuel i : ℕ) (a b fa fb z cv : ℝ),
      (bisectLoopFab f eps M fuel i a b fa fb z cv).warn = true →
      (bisectLoopFab f eps M fuel i a b fa fb z cv).iters = M := by
  intro fuel
  induction fuel with
  | zero =>
    intro i a b fa fb z cv h
    rw [bisectLoopFab_zero] at h ⊢
    exact of_decide_eq_true h
  | succ fuel ih =>
    intro i a b fa fb z cv h
    rw [bisectLoopFab_succ] at h ⊢
    split_ifs at h ⊢ with h1 h2 h3 h4
    · exact of_decide_eq_true h
    · exact ih (i + 1) a ((a + b) * 0.5) fa (f ((a + b) * 0.5)) ((a + b) * 0.5) (|b - a|) h
    · exact ih (i + 1) ((a + b) * 0.5) b (f ((a + b) * 0.5)) fb ((a + b) * 0.5) (|b - a|) h
    · exact of_decide_eq_true h

/-- When the fuel at entry equals `maxIter` minus the counter, an exit counter
equal to the cap forces the fuel-exhaustion exit, which raises the warning. -/
theorem bisectLoop_capwarn (f : ℝ → ℝ) (eps : ℝ) (M : ℕ) :
    ∀ (fuel i : ℕ) (a b zn cv : ℝ), i + fuel = M →
      (bisectLoop f eps M fuel i a b zn cv).iters = M →
      (bisectLoop f eps M fuel i a b zn cv).warn = true := by
  intro fuel
  induction fuel with
  | zero =>
    intro i a b zn cv hiM h
    rw [bisectLoop_zero]
    simp [show i = M by omega]
  | succ fuel ih =>
    intro i a b zn cv hiM h
    rw [bisectLoop_succ] at h ⊢
    split_ifs at h ⊢ with h1 h2 h3 h4
    · exfalso
      simp only at h
      omega
    · exact ih (i + 1) a ((a + b) * 0.5) ((a + b) * 0.5) (|b - a|) (by omega) h
    · exact ih (i + 1) ((a + b) * 0.5) b ((a + b) * 0.5) (|b - a|) (by omega) h
    · exfalso
      simp only at h
      omega
    · exfalso
      simp only at h
      omega

/-- When the loop consumes all its fuel (the exit counter equals the entry
counter plus the fuel), the value left in the caller's `z` is the midpoint
computed by the last executed iteration: after `fuel + 1` halvings of the
initial bracket `[a, b]` it has the exact dyadic form
`a + (2k+1)*(b-a)/2^(fuel+1)` with `k` the index of the final sub-bracket. -/
theorem bisectLoop_cap_last_mid (f : ℝ → ℝ) (eps : ℝ) (M : ℕ) :
    ∀ (fuel i : ℕ) (a b zn cv : ℝ),
      (bisectLoop f eps M (fuel + 1) i a b zn cv).iters = i + (fuel + 1) →
      ∃ k : ℕ, k < 2 ^ fuel ∧
        (bisectLoop f eps M (fuel + 1) i a b zn cv).z =
          a + (2 * (k : ℝ) + 1) * ((b - a) / 2 ^ (fuel + 1)) := by
  intro fuel
  induction fuel with
  | zero =>
    intro i a b zn cv h
    rw [bisectLoop_succ] at h ⊢
    split_ifs at h ⊢ with h1 h2 h3 h4
    · exfalso
      simp only at h
      omega
    · simp only [bisectLoop_zero]
      refine ⟨0, by norm_num, ?_⟩
      push_cast
      ring
    · simp only [bisectLoop_zero]
      refine ⟨0, by norm_num, ?_⟩
      push_cast
      ring
    · exfalso
      simp only at h
      omega
    · exfalso
      simp only at h
      omega
  | succ fuel ih =>
    intro i a b zn cv h
    rw [bisectLoop_succ] at h ⊢
    split_ifs at h ⊢ with h1 h2 h3 h4
    · exfalso
      simp only at h
      omega
    · have h2iter : (bisectLoop f eps M (fuel + 1) (i + 1) a ((a + b) * 0.5)
          ((a + b) * 0.5) (|b - a|)).iters = (i + 1) + (fuel + 1) := by
        rw [h]
        omega
      obtain ⟨k, hk, hz⟩ := ih (i + 1) a ((a + b) * 0.5) ((a + b) * 0.5) (|b - a|) h2iter
      refine ⟨k, lt_of_lt_of_le hk (Nat.pow_le_pow_right (by norm_num) (Nat.le_succ fuel)), ?_⟩
      rw [hz]
      have hpne : (2:ℝ) ^ (fuel + 1) ≠ 0 := pow_ne_zero _ two_ne_zero
      have hpne2 : (2:ℝ) ^ (fuel + 1 + 1) ≠ 0 := pow_ne_zero _ two_ne_zero
      field_simp
      ring
    · have h2iter : (bisectLoop f eps M (fuel + 1) (i + 1) ((a + b) * 0.5) b
          ((a + b) * 0.5) (|b - a|)).iters = (i + 1) + (fuel + 1) := by
        rw [h]
        omega
      obtain ⟨k, hk, hz⟩ := ih (i + 1) ((a + b) * 0.5) b ((a + b) * 0.5) (|b - a|) h2iter
      refine ⟨2 ^ fuel + k, ?_, ?_⟩
      · have hp : 2 ^ (fuel + 1) = 2 ^ fuel * 2 := pow_succ 2 fuel
        omega
      · rw [hz]
        push_cast
        have hpne : (2:ℝ) ^ (fuel + 1) ≠ 0 := pow_ne_zero _ two_ne_zero
        have hpne2 : (2:ℝ) ^ (fuel + 1 + 1) ≠ 0 := pow_ne_zero _ two_ne_zero
        field_simp
        ring
    · exfalso
      simp only at h
      omega
    · exfalso
      simp only at h
      omega

/-- On a residual identically `z - 1` and a bracket far above the root, the
loop keeps moving the right endpoint and burns all its fuel whenever the
initial width exceeds `eps * 2 ^ fuel`; the exit counter is then exactly the
entry counter plus the fuel. -/
theorem bisectLoop_cap_reach (f : ℝ → ℝ) (eps : ℝ) (M : ℕ) (hf : ∀ z, f z = z - 1)
    (heps : 0 < eps) :
    ∀ (fuel i : ℕ) (a b zn cv : ℝ), 2 ≤ a → a < b → eps * 2 ^ fuel ≤ b - a →
      (bisectLoop f eps M fuel i a b zn cv).iters = i + fuel := by
  intro fuel
  induction fuel with
  | zero =>
    intro i a b zn cv h2 hab hw
    simp [bisectLoop_zero]
  | succ fuel ih =>
    intro i a b zn cv h2 hab hw
    have hpowone : (1:ℝ) ≤ 2 ^ fuel := one_le_pow₀ (by norm_num)
    have hwid : eps * 2 ^ fuel ≤ (a + b) * 0.5 - a := by
      rw [pow_succ] at hw
      nlinarith
    have hw1 : eps < b - a := by
      rw [pow_succ] at hw
      nlinarith
    have hnotw : ¬ |b - a| ≤ eps := by
      rw [abs_of_pos (by linarith : (0:ℝ) < b - a)]
      exact not_le.mpr hw1
    have hfmid : f ((a + b) * 0.5) > 0 := by
      rw [hf]
      linarith
    rw [bisectLoop_succ, if_neg hnotw, if_pos hfmid]
    have := ih (i + 1) a ((a + b) * 0.5) ((a + b) * 0.5) (|b - a|) h2 (by linarith) hwid
    omega

/-- On a residual identically `z - 1`, a bracket straddling `1` whose width
fits below `eps * 2 ^ fuel` makes the sign-branching loop exit with status 0
and a value within `eps` of `1`.  The auxiliary hypothesis on the carried
`zn` covers the fuel-exhaustion exit, which returns the parent midpoint. -/
theorem bisectLoop_near_one (f : ℝ → ℝ) (eps : ℝ) (M : ℕ) (hf : ∀ z, f z = z - 1)
    (heps : 0 < eps) :
    ∀ (fuel i : ℕ) (a b zn cv : ℝ), a < 1 → 1 < b → b - a ≤ eps * 2 ^ fuel →
      (b - a ≤ eps → |zn - 1| ≤ eps) →
      (bisectLoop f eps M fuel i a b zn cv).err = 0 ∧
      |(bisectLoop f eps M fuel i a b zn cv).z - 1| ≤ eps := by
  intro fuel
  induction fuel with
  | zero =>
    intro i a b zn cv ha hb hw hzn
    rw [bisectLoop_zero]
    exact ⟨rfl, hzn (by simpa using hw)⟩
  | succ fuel ih =>
    intro i a b zn cv ha hb hw hzn
    have hw2 : b - a ≤ eps * 2 ^ fuel * 2 := by
      rw [pow_succ] at hw
      linarith
    by_cases h1 : |b - a| ≤ eps
    · rw [bisectLoop_succ, if_pos h1]
      rw [abs_of_pos (by linarith : (0:ℝ) < b - a)] at h1
      refine ⟨rfl, ?_⟩
      rw [abs_le]
      constructor
      · linarith
      · linarith
    · rw [bisectLoop_succ, if_neg h1]
      rcases lt_trichotomy ((a + b) * 0.5) 1 with hm | hm | hm
      · have hfm1 : ¬ f ((a + b) * 0.5) > 0 := by
          rw [hf]
          linarith
        have hfm2 : f ((a + b) * 0.5) < 0 := by
          rw [hf]
          linarith
        rw [if_neg hfm1, if_pos hfm2]
        refine ih (i + 1) ((a + b) * 0.5) b ((a + b) * 0.5) (|b - a|) hm hb
          (by linarith) ?_
        intro hsm
        rw [abs_le]
        constructor
        · linarith
        · linarith
      · have hfm1 : ¬ f ((a + b) * 0.5) > 0 := by
          rw [hf, hm]
          norm_num
        have hfm2 : ¬ f ((a + b) * 0.5) < 0 := by
          rw [hf, hm]
          norm_num
        have hfm3 : f ((a + b) * 0.5) = 0 := by
          rw [hf, hm]
          norm_num
        rw [if_neg hfm1, if_neg hfm2, if_pos hfm3]
        refine ⟨rfl, ?_⟩
        rw [hm]
        simpa using heps.le
      · have hfm1 : f ((a + b) * 0.5) > 0 := by
          rw [hf]
          linarith
        rw [if_pos hfm1]
        refine ih (i + 1) a ((a + b) * 0.5) ((a + b) * 0.5) (|b - a|) ha hm
          (by linarith) ?_
        intro hsm
        rw [abs_le]
        constructor
        · linarith
        · linarith

/-- The analogue of `bisectLoop_near_one` for the `fa`/`fb` loop: the stored
endpoint residuals only need the signs `fa < 0 < fb` for the product tests to
steer the bracket exactly as the sign-branching loop does. -/
theorem bisectLoopFab_near_one (f : ℝ → ℝ) (eps : ℝ) (M : ℕ) (hf : ∀ z, f z = z - 1)
    (heps : 0 < eps) :
    ∀ (fuel i : ℕ) (a b fa fb z cv : ℝ), a < 1 → 1 < b → fa < 0 → 0 < fb →
      b - a ≤ eps * 2 ^ fuel → (b - a ≤ eps → |z - 1| ≤ eps) →
      (bisectLoopFab f eps M fuel i a b fa fb z cv).err = 0 ∧
      |(bisectLoopFab f eps M fuel i a b fa fb z cv).z - 1| ≤ eps := by
  intro fuel
  induction fuel with
  | zero =>
    intro i a b fa fb z cv ha hb hfa hfb hw hz
    rw [bisectLoopFab_zero]
    exact ⟨rfl, hz (by simpa using hw)⟩
  | succ fuel ih =>
    intro i a b fa fb z cv ha hb hfa hfb hw hz
    have hw2 : b - a ≤ eps * 2 ^ fuel * 2 := by
      rw [pow_succ] at hw
      linarith
    by_cases h1 : |b - a| ≤ eps
    · rw [bisectLoopFab_succ, if_pos h1]
      rw [abs_of_pos (by linarith : (0:ℝ) < b - a)] at h1
      refine ⟨rfl, ?_⟩
      rw [abs_le]
      constructor
      · linarith
      · linarith
    · rw [bisectLoopFab_succ, if_neg h1]
      rcases lt_trichotomy ((a + b) * 0.5) 1 with hm | hm | hm
      · have hfz : f ((a + b) * 0.5) < 0 := by
          rw [hf]
          linarith
        have hp1 : ¬ fa * f ((a + b) * 0.5) < 0 := by
          push_neg
          exact le_of_lt (mul_pos_of_neg_of_neg hfa hfz)
        have hp2 : fb * f ((a + b) * 0.5) < 0 := mul_neg_of_pos_of_neg hfb hfz
        rw [if_neg hp1, if_pos hp2]
        refine ih (i + 1) ((a + b) * 0.5) b (f ((a + b) * 0.5)) fb ((a + b) * 0.5)
          (|b - a|) hm hb hfz hfb (by linarith) ?_
        intro hsm
        rw [abs_le]
        constructor
        · linarith
        · linarith
      · have hfz : f ((a + b) * 0.5) = 0 := by
          rw [hf, hm]
          norm_num
        have hp1 : ¬ fa * f ((a + b) * 0.5) < 0 := by
          rw [hfz, mul_zero]
          exact lt_irrefl 0
        have hp2 : ¬ fb * f ((a + b) * 0.5) < 0 := by
          rw [hfz, mul_zero]
          exact lt_irrefl 0
        rw [if_neg hp1, if_neg hp2, if_pos hfz]
        refine ⟨rfl, ?_⟩
        rw [hm]
        simpa using heps.le
      · have hfz : f ((a + b) * 0.5) > 0 := by
          rw [hf]
          linarith
        have hp1 : fa * f ((a + b) * 0.5) < 0 := mul_neg_of_neg_of_pos hfa hfz
        rw [if_pos hp1]
        refine ih (i + 1) a ((a + b) * 0.5) fa (f ((a + b) * 0.5)) ((a + b) * 0.5)
          (|b - a|) ha hm hfa hfz (by linarith) ?_
        intro hsm
        rw [abs_le]
        constructor
        · linarith
        · linarith

/-- Exact value of the folded constant of main.c at `Ppr = 100/9`, `Tpr = 1`,
where `Rr_z = 3`. -/
theorem C_main_at_input : C_main (100 / 9) 1 = 11.17918336 := by
  unfold C_main tmp2_main Rr_z invTpr
  norm_num

/-- At `Ppr = 100/9`, `Tpr = 1` the main.c residual is negative on the whole
initial bracket, in particular at `0.6`, at the first midpoint `0.95`, and at
`1.3`. -/
theorem residual_main_neg_at (z : ℝ) (hz : z ≤ 1.3) : residual_main (100 / 9) 1 z < 0 := by
  have h1 := fun_DAK_main_le (C_main (100 / 9) 1) (Rr_of (100 / 9) 1 z) 1 z one_pos
  have h2 : C_main (100 / 9) 1 = 11.17918336 := C_main_at_input
  unfold residual_main
  rw [h2]
  rw [h2] at h1
  linarith

/-- At `Ppr = 400/9`, `Tpr = 1` the first part_000 variant's residual is
negative at the left bracket endpoint `a = 1e-2` (where `Rr = 1200` and the
quintic term dominates). -/
theorem residual_v1_neg_a : residual_v1 (400 / 9) 1 1e-2 < 0 := by
  have h := residual_v1_le (400 / 9) 1 1e-2 one_pos
  have h2 : fun_DAK_p (C0_v1 1) (C1_v1 1) (C2_v1 1) 0 (Rr_of (400 / 9) 1 1e-2) 1e-2 < 0 := by
    unfold fun_DAK_p C0_v1 C1_v1 C2_v1 tmp2_v1 A0 A1 A2 A3 A4 A5 A6 A7 A8 Rr_of Rr_z invTpr
    norm_num
  linarith

/-- At `Ppr = 400/9`, `Tpr = 1` the first part_000 variant's residual is also
negative at the right bracket endpoint `b = 4` (where `Rr = 3`). -/
theorem residual_v1_neg_b : residual_v1 (400 / 9) 1 4.0 < 0 := by
  have h := residual_v1_le (400 / 9) 1 4.0 one_pos
  have h2 : fun_DAK_p (C0_v1 1) (C1_v1 1) (C2_v1 1) 0 (Rr_of (400 / 9) 1 4.0) 4.0 < 0 := by
    unfold fun_DAK_p C0_v1 C1_v1 C2_v1 tmp2_v1 A0 A1 A2 A3 A4 A5 A6 A7 A8 Rr_of Rr_z invTpr
    norm_num
  linarith

/-- C1: the main.c residual evaluator is claimed to agree with the part_000
evaluators at every trial `z`; at `Ppr = 100/9`, `Tpr = 1`, `z = 2` the two
differ, because main.c's folded constant `C` freezes the polynomial terms at
`Rr_z = 3` while the part_000 variants evaluate them at `Rr = Rr_z/z = 1.5`
(the exponential terms agree and cancel, leaving a nonzero rational gap). -/
theorem C1_residual_fold_differs : residual_main (100 / 9) 1 2 ≠ residual_v1 (100 / 9) 1 2 := by
  intro h
  unfold residual_main residual_v1 fun_DAK_main fun_DAK_p coeff_C3 C_main C0_v1 C1_v1
    C2_v1 tmp2_main tmp2_v1 A0 A1 A2 A3 A4 A5 A6 A7 A8 A9 A10 Rr_of Rr_z invTpr at h
  norm_num at h

/-- C4: the literal `2 * 10e-6` of both part_000 variants is exactly `2e-5`,
ten times the `2.0e-6` of main.c, and the two constants are unequal. -/
theorem C4_tolerance_literal :
    epsilon_v1 = 2e-5 ∧ epsilon_v2 = 2e-5 ∧
    epsilon_v1 = 10 * epsilon_main ∧ epsilon_v2 = 10 * epsilon_main ∧
    epsilon_v1 ≠ epsilon_main := by
  refine ⟨?_, ?_, ?_, ?_, ?_⟩ <;> norm_num [epsilon_v1, epsilon_v2, epsilon_main]

/-- C9: over real arithmetic (every residual finite), all three solvers are
incapable of returning the defensive code `-2`: the sign-branching loops are
protected by trichotomy, and the product-branching loop by the preserved
opposite-sign invariant established at its bracket check. -/
theorem C9_defensive_branch_unreachable (Ppr Tpr P T sg : ℝ) :
    (calcZfactor_DAK_main Ppr Tpr).err ≠ -2 ∧
    (calcZfactor_DAK_v2 Ppr Tpr).err ≠ -2 ∧
    (calcZfactor_DAK_v1 P T sg).err ≠ -2 := by
  refine ⟨?_, ?_, ?_⟩
  · unfold calcZfactor_DAK_main mainSolveFrom
    rw [bisectLoop_err_eq_zero]
    decide
  · unfold calcZfactor_DAK_v2
    rw [bisectLoop_err_eq_zero]
    decide
  · unfold calcZfactor_DAK_v1 calcZfactor_DAK_v1_core
    split_ifs with h1 h2 h3
    · decide
    · decide
    · decide
    · have hab : residual_v1 (Ppr_of_v1 P sg) (Tpr_of_v1 T sg) 1e-2 *
          residual_v1 (Ppr_of_v1 P sg) (Tpr_of_v1 T sg) 4.0 < 0 :=
        lt_of_le_of_ne (not_lt.mp h1) (mul_ne_zero h2 h3)
      rw [bisectLoopFab_err_eq_zero _ _ _ _ _ _ _ _ _ _ _ hab]
      decide

/-- C10: the hard-coded bracket widths and tolerances force the width test to
succeed well before the cap of 100 iterations in every variant (at most 19,
16 and 18 iterations respectively), so the max-iteration warning is never
printed. -/
theorem C10_cap_is_dead_code (Ppr Tpr P T sg : ℝ) :
    (calcZfactor_DAK_main Ppr Tpr).iters ≤ 19 ∧
    (calcZfactor_DAK_main Ppr Tpr).warn = false ∧
    (calcZfactor_DAK_v2 Ppr Tpr).iters ≤ 16 ∧
    (calcZfactor_DAK_v2 Ppr Tpr).warn = false ∧
    (calcZfactor_DAK_v1 P T sg).iters ≤ 18 ∧
    (calcZfactor_DAK_v1 P T sg).warn = false := by
  have habs1 : |(1.3:ℝ) - 0.6| = 0.7 := by
    rw [abs_of_pos (by norm_num : (0:ℝ) < 1.3 - 0.6)]
    norm_num
  have hmain : (calcZfactor_DAK_main Ppr Tpr).iters ≤ 19 := by
    unfold calcZfactor_DAK_main mainSolveFrom
    have := bisectLoop_iters_le (residual_main Ppr Tpr) epsilon_main 100 19 100 0
      0.6 1.3 0 0 (by rw [habs1]; norm_num [epsilon_main])
    simpa using this
  have hmainw : (calcZfactor_DAK_main Ppr Tpr).warn = false := by
    rw [← Bool.not_eq_true]
    intro hwv
    have h100 : (calcZfactor_DAK_main Ppr Tpr).iters = 100 := by
      unfold calcZfactor_DAK_main mainSolveFrom at hwv ⊢
      exact bisectLoop_warn_imp _ _ _ 100 0 0.6 1.3 0 0 hwv
    omega
  have hv2 : (calcZfactor_DAK_v2 Ppr Tpr).iters ≤ 16 := by
    unfold calcZfactor_DAK_v2
    have := bisectLoop_iters_le (residual_v2 Ppr Tpr) epsilon_v2 100 16 100 0
      0.6 1.3 0 0 (by rw [habs1]; norm_num [epsilon_v2])
    simpa using this
  have hv2w : (calcZfactor_DAK_v2 Ppr Tpr).warn = false := by
    rw [← Bool.not_eq_true]
    intro hwv
    have h100 : (calcZfactor_DAK_v2 Ppr Tpr).iters = 100 := by
      unfold calcZfactor_DAK_v2 at hwv ⊢
      exact bisectLoop_warn_imp _ _ _ 100 0 0.6 1.3 0 0 hwv
    omega
  have habs2 : |(4.0:ℝ) - 1e-2| = 3.99 := by
    rw [abs_of_pos (by norm_num : (0:ℝ) < 4.0 - 1e-2)]
    norm_num
  have hv1 : (calcZfactor_DAK_v1 P T sg).iters ≤ 18 := by
    unfold calcZfactor_DAK_v1 calcZfactor_DAK_v1_core
    split_ifs
    · simp
    · simp
    · simp
    · have := bisectLoopFab_iters_le (residual_v1 (Ppr_of_v1 P sg) (Tpr_of_v1 T sg))
        epsilon_v1 100 18 100 0 1e-2 4.0
        (residual_v1 (Ppr_of_v1 P sg) (Tpr_of_v1 T sg) 1e-2)
        (residual_v1 (Ppr_of_v1 P sg) (Tpr_of_v1 T sg) 4.0) 0 0
        (by rw [habs2]; norm_num [epsilon_v1])
      simpa using this
  have hv1w : (calcZfactor_DAK_v1 P T sg).warn = false := by
    rw [← Bool.not_eq_true]
    intro hwv
    have h100 : (calcZfactor_DAK_v1 P T sg).iters = 100 := by
      unfold calcZfactor_DAK_v1 calcZfactor_DAK_v1_core at hwv ⊢
      split_ifs at hwv ⊢
      all_goals exact bisectLoopFab_warn_imp _ _ _ 100 0 1e-2 4.0 _ _ 0 0 hwv
    omega
  exact ⟨hmain, hmainw, hv2, hv2w, hv1, hv1w⟩

/-- C3, counterexample: main.c is a bisection variant, and at `Ppr = 100/9`,
`Tpr = 1` its hard-coded bracket endpoints have same-sign residuals, yet the
solver returns success code 0 (it has no bracket check and no `-1` path)
instead of failing with `-1`. -/
theorem C3_counterexample :
    residual_main (100 / 9) 1 0.6 * residual_main (100 / 9) 1 1.3 > 0 ∧
    (calcZfactor_DAK_main (100 / 9) 1).err = 0 := by
  constructor
  · exact mul_pos_of_neg_of_neg (residual_main_neg_at 0.6 (by norm_num))
      (residual_main_neg_at 1.3 le_rfl)
  · unfold calcZfactor_DAK_main mainSolveFrom
    exact bisectLoop_err_eq_zero _ _ _ _ _ _ _ _ _

/-- C3, amended: only the first part_000 variant performs the bracket check;
for it, endpoint residuals of the same sign make the solve fail with `-1`
before iterating, and an exactly-zero endpoint residual returns that endpoint
immediately with success (with the `fa` test taking precedence). -/
theorem C3_bracket_check_v1 (Ppr Tpr : ℝ) :
    (residual_v1 Ppr Tpr 1e-2 * residual_v1 Ppr Tpr 4.0 > 0 →
      (calcZfactor_DAK_v1_core Ppr Tpr).err = -1) ∧
    (residual_v1 Ppr Tpr 1e-2 = 0 →
      (calcZfactor_DAK_v1_core Ppr Tpr).err = 0 ∧
      (calcZfactor_DAK_v1_core Ppr Tpr).z = 1e-2) ∧
    (residual_v1 Ppr Tpr 1e-2 ≠ 0 → residual_v1 Ppr Tpr 4.0 = 0 →
      (calcZfactor_DAK_v1_core Ppr Tpr).err = 0 ∧
      (calcZfactor_DAK_v1_core Ppr Tpr).z = 4.0) := by
  refine ⟨?_, ?_, ?_⟩
  · intro h
    unfold calcZfactor_DAK_v1_core
    rw [if_pos h]
  · intro h
    have hc1 : ¬ residual_v1 Ppr Tpr 1e-2 * residual_v1 Ppr Tpr 4.0 > 0 := by
      rw [h, zero_mul]
      exact lt_irrefl 0
    unfold calcZfactor_DAK_v1_core
    rw [if_neg hc1, if_pos h]
    exact ⟨rfl, rfl⟩
  · intro h2 h3
    have hc1 : ¬ residual_v1 Ppr Tpr 1e-2 * residual_v1 Ppr Tpr 4.0 > 0 := by
      rw [h3, mul_zero]
      exact lt_irrefl 0
    unfold calcZfactor_DAK_v1_core
    rw [if_neg hc1, if_neg h2, if_pos h3]
    exact ⟨rfl, rfl⟩

/-- Witness for the amended C3: at `Ppr = 400/9`, `Tpr = 1` both endpoint
residuals of the first part_000 variant are negative, the same-sign
hypothesis holds, and the solver indeed fails with `-1`. -/
theorem C3_bracket_check_v1_witness :
    residual_v1 (400 / 9) 1 1e-2 * residual_v1 (400 / 9) 1 4.0 > 0 ∧
    (calcZfactor_DAK_v1_core (400 / 9) 1).err = -1 := by
  have hprod : residual_v1 (400 / 9) 1 1e-2 * residual_v1 (400 / 9) 1 4.0 > 0 :=
    mul_pos_of_neg_of_neg residual_v1_neg_a residual_v1_neg_b
  exact ⟨hprod, (C3_bracket_check_v1 (400 / 9) 1).1 hprod⟩

/-- C5: whenever the main.c bisection loop exits with its counter at the cap
of 100, the call still reports status 0 with the warning flag raised, and the
value left in the caller's `z` is the midpoint computed by the last executed
iteration: the exact dyadic midpoint `a + (2k+1)*(b-a)/2^100` of the
sub-bracket reached after 99 halvings; non-convergence is flagged, not
silent. -/
theorem C5_cap_soft_failure (Ppr Tpr a b : ℝ)
    (h : (mainSolveFrom Ppr Tpr a b).iters = 100) :
    (mainSolveFrom Ppr Tpr a b).err = 0 ∧ (mainSolveFrom Ppr Tpr a b).warn = true ∧
    ∃ k : ℕ, k < 2 ^ 99 ∧
      (mainSolveFrom Ppr Tpr a b).z = a + (2 * (k : ℝ) + 1) * ((b - a) / 2 ^ 100) := by
  unfold mainSolveFrom at h ⊢
  refine ⟨bisectLoop_err_eq_zero _ _ _ _ _ _ _ _ _, ?_, ?_⟩
  · exact bisectLoop_capwarn _ _ _ 100 0 a b 0 0 rfl h
  · have h2 : (bisectLoop (residual_main Ppr Tpr) epsilon_main 100 (99 + 1) 0 a b 0
        0).iters = 0 + (99 + 1) := by
      rw [h]
    exact bisectLoop_cap_last_mid _ _ _ 99 0 a b 0 0 h2

/-- Witness for C5: with `Ppr = 0` (residual `z - 1`) and the bracket
`[2, 2 + eps*2^100]`, which lies entirely above the root, the loop burns all
100 iterations; the theorem then yields the flagged soft failure. -/
theorem C5_cap_soft_failure_witness :
    (mainSolveFrom 0 1 2 (2 + epsilon_main * 2 ^ 100)).iters = 100 ∧
    ((mainSolveFrom 0 1 2 (2 + epsilon_main * 2 ^ 100)).err = 0 ∧
     (mainSolveFrom 0 1 2 (2 + epsilon_main * 2 ^ 100)).warn = true ∧
     ∃ k : ℕ, k < 2 ^ 99 ∧
       (mainSolveFrom 0 1 2 (2 + epsilon_main * 2 ^ 100)).z =
         2 + (2 * (k : ℝ) + 1) * ((2 + epsilon_main * 2 ^ 100 - 2) / 2 ^ 100)) := by
  have hepos : (0:ℝ) < epsilon_main * 2 ^ 100 := by
    norm_num [epsilon_main]
  have hcap : (mainSolveFrom 0 1 2 (2 + epsilon_main * 2 ^ 100)).iters = 100 := by
    unfold mainSolveFrom
    have := bisectLoop_cap_reach (residual_main 0 1) epsilon_main 100
      (residual_main_ppr0 1) (by norm_num [epsilon_main]) 100 0 2
      (2 + epsilon_main * 2 ^ 100) 0 0 le_rfl (by linarith) (by linarith)
    simpa using this
  exact ⟨hcap, C5_cap_soft_failure 0 1 2 (2 + epsilon_main * 2 ^ 100) hcap⟩

/-- C6: with `Ppr = 0` every residual reduces to `z - 1`, and each solver
converges with status 0 to a value within its own configured tolerance of the
ideal-gas limit `z = 1`. -/
theorem C6_ideal_gas_limit (Tpr : ℝ) (hlo : 1 ≤ Tpr) (hhi : Tpr ≤ 3) :
    ((calcZfactor_DAK_main 0 Tpr).err = 0 ∧
      |(calcZfactor_DAK_main 0 Tpr).z - 1| ≤ epsilon_main) ∧
    ((calcZfactor_DAK_v1_core 0 Tpr).err = 0 ∧
      |(calcZfactor_DAK_v1_core 0 Tpr).z - 1| ≤ epsilon_v1) ∧
    ((calcZfactor_DAK_v2 0 Tpr).err = 0 ∧
      |(calcZfactor_DAK_v2 0 Tpr).z - 1| ≤ epsilon_v2) := by
  refine ⟨?_, ?_, ?_⟩
  · unfold calcZfactor_DAK_main mainSolveFrom
    exact bisectLoop_near_one (residual_main 0 Tpr) epsilon_main 100
      (residual_main_ppr0 Tpr) (by norm_num [epsilon_main]) 100 0 0.6 1.3 0 0
      (by norm_num) (by norm_num) (by norm_num [epsilon_main])
      (fun hc => absurd hc (by norm_num [epsilon_main]))
  · have hres : ∀ z, residual_v1 0 Tpr z = z - 1 := residual_v1_ppr0 Tpr
    have hc1 : ¬ (residual_v1 0 Tpr 1e-2 * residual_v1 0 Tpr 4.0 > 0) := by
      rw [hres, hres]
      norm_num
    have hc2 : ¬ (residual_v1 0 Tpr 1e-2 = 0) := by
      rw [hres]
      norm_num
    have hc3 : ¬ (residual_v1 0 Tpr 4.0 = 0) := by
      rw [hres]
      norm_num
    unfold calcZfactor_DAK_v1_core
    rw [if_neg hc1, if_neg hc2, if_neg hc3]
    exact bisectLoopFab_near_one (residual_v1 0 Tpr) epsilon_v1 100 hres
      (by norm_num [epsilon_v1]) 100 0 1e-2 4.0 (residual_v1 0 Tpr 1e-2)
      (residual_v1 0 Tpr 4.0) 0 0 (by norm_num) (by norm_num)
      (by rw [hres]; norm_num) (by rw [hres]; norm_num) (by norm_num [epsilon_v1])
      (fun hc => absurd hc (by norm_num [epsilon_v1]))
  · unfold calcZfactor_DAK_v2
    exact bisectLoop_near_one (residual_v2 0 Tpr) epsilon_v2 100
      (residual_v2_ppr0 Tpr) (by norm_num [epsilon_v2]) 100 0 0.6 1.3 0 0
      (by norm_num) (by norm_num) (by norm_num [epsilon_v2])
      (fun hc => absurd hc (by norm_num [epsilon_v2]))

/-- Witness for C6 at the concrete valid temperature `Tpr = 2`. -/
theorem C6_ideal_gas_limit_witness :
    (1:ℝ) ≤ 2 ∧ (2:ℝ) ≤ 3 ∧
    (((calcZfactor_DAK_main 0 2).err = 0 ∧
       |(calcZfactor_DAK_main 0 2).z - 1| ≤ epsilon_main) ∧
     ((calcZfactor_DAK_v1_core 0 2).err = 0 ∧
       |(calcZfactor_DAK_v1_core 0 2).z - 1| ≤ epsilon_v1) ∧
     ((calcZfactor_DAK_v2 0 2).err = 0 ∧
       |(calcZfactor_DAK_v2 0 2).z - 1| ≤ epsilon_v2)) := by
  refine ⟨by norm_num, by norm_num, ?_⟩
  exact C6_ideal_gas_limit 2 (by norm_num) (by norm_num)

/-- C2, amended: a bisection iteration of every variant computes the midpoint
`z_mid = (a+b)/2`, stops returning it as soon as `|b-a| ≤ eps`, and stops
early returning it when `f(z_mid)` is exactly zero.  The endpoint-replacement
step of the `fa`/`fb` variant replaces exactly one endpoint and preserves a
sign-changing bracket whenever the current bracket is sign-changing; the
sign-branching loops of main.c and the second variant do so whenever the
current bracket is sign-changing in the oriented form `f(a) < 0 < f(b)`. -/
theorem C2_bisection_step (f : ℝ → ℝ) (eps : ℝ) (M fuel i : ℕ) (a b zn cv fa fb : ℝ) :
    (|b - a| ≤ eps →
      bisectLoop f eps M (fuel + 1) i a b zn cv =
        ⟨0, (a + b) * 0.5, i, |b - a|, decide (i = M)⟩) ∧
    (|b - a| ≤ eps →
      bisectLoopFab f eps M (fuel + 1) i a b fa fb zn cv =
        ⟨0, (a + b) * 0.5, i, |b - a|, decide (i = M)⟩) ∧
    (eps < |b - a| → f ((a + b) * 0.5) = 0 →
      bisectLoop f eps M (fuel + 1) i a b zn cv =
        ⟨0, (a + b) * 0.5, i, |b - a|, decide (i = M)⟩) ∧
    (eps < |b - a| → f ((a + b) * 0.5) = 0 →
      bisectLoopFab f eps M (fuel + 1) i a b fa fb zn cv =
        ⟨0, (a + b) * 0.5, i, |b - a|, decide (i = M)⟩) ∧
    (eps < |b - a| → f a < 0 → 0 < f b → f ((a + b) * 0.5) ≠ 0 →
      ((0 < f ((a + b) * 0.5) ∧
        bisectLoop f eps M (fuel + 1) i a b zn cv =
          bisectLoop f eps M fuel (i + 1) a ((a + b) * 0.5) ((a + b) * 0.5) (|b - a|) ∧
        f a < 0 ∧ 0 < f ((a + b) * 0.5)) ∨
       (f ((a + b) * 0.5) < 0 ∧
        bisectLoop f eps M (fuel + 1) i a b zn cv =
          bisectLoop f eps M fuel (i + 1) ((a + b) * 0.5) b ((a + b) * 0.5) (|b - a|) ∧
        f ((a + b) * 0.5) < 0 ∧ 0 < f b))) ∧
    (eps < |b - a| → fa = f a → fb = f b → fa * fb < 0 → f ((a + b) * 0.5) ≠ 0 →
      ((bisectLoopFab f eps M (fuel + 1) i a b fa fb zn cv =
          bisectLoopFab f eps M fuel (i + 1) a ((a + b) * 0.5) fa (f ((a + b) * 0.5))
            ((a + b) * 0.5) (|b - a|) ∧
        fa * f ((a + b) * 0.5) < 0) ∨
       (bisectLoopFab f eps M (fuel + 1) i a b fa fb zn cv =
          bisectLoopFab f eps M fuel (i + 1) ((a + b) * 0.5) b (f ((a + b) * 0.5)) fb
            ((a + b) * 0.5) (|b - a|) ∧
        f ((a + b) * 0.5) * fb < 0))) := by
  refine ⟨?_, ?_, ?_, ?_, ?_, ?_⟩
  · intro h
    rw [bisectLoop_succ, if_pos h]
  · intro h
    rw [bisectLoopFab_succ, if_pos h]
  · intro h hz
    have hc1 : ¬ f ((a + b) * 0.5) > 0 := by
      rw [hz]
      exact lt_irrefl 0
    have hc2 : ¬ f ((a + b) * 0.5) < 0 := by
      rw [hz]
      exact lt_irrefl 0
    rw [bisectLoop_succ, if_neg (not_le.mpr h), if_neg hc1, if_neg hc2, if_pos hz]
  · intro h hz
    have hc1 : ¬ fa * f ((a + b) * 0.5) < 0 := by
      rw [hz, mul_zero]
      exact lt_irrefl 0
    have hc2 : ¬ fb * f ((a + b) * 0.5) < 0 := by
      rw [hz, mul_zero]
      exact lt_irrefl 0
    rw [bisectLoopFab_succ, if_neg (not_le.mpr h), if_neg hc1, if_neg hc2, if_pos hz]
  · intro h ha hb hne
    rcases lt_trichotomy (f ((a + b) * 0.5)) 0 with hm | hm | hm
    · refine Or.inr ⟨hm, ?_, hm, hb⟩
      rw [bisectLoop_succ, if_neg (not_le.mpr h), if_neg (not_lt.mpr hm.le), if_pos hm]
    · exact absurd hm hne
    · refine Or.inl ⟨hm, ?_, ha, hm⟩
      rw [bisectLoop_succ, if_neg (not_le.mpr h), if_pos hm]
  · intro h hfa hfb hab hne
    rcases lt_trichotomy (fa * f ((a + b) * 0.5)) 0 with hp | hp | hp
    · refine Or.inl ⟨?_, hp⟩
      rw [bisectLoopFab_succ, if_neg (not_le.mpr h), if_pos hp]
    · exfalso
      have hfa0 : fa ≠ 0 := by
        intro h0
        rw [h0, zero_mul] at hab
        exact lt_irrefl 0 hab
      exact mul_ne_zero hfa0 hne hp
    · have hz2 : 0 < f ((a + b) * 0.5) * f ((a + b) * 0.5) := mul_self_pos.mpr hne
      have hfbz : fb * f ((a + b) * 0.5) < 0 := by
        by_contra hc
        push_neg at hc
        nlinarith
      refine Or.inr ⟨?_, by linarith [hfbz]⟩
      rw [bisectLoopFab_succ, if_neg (not_le.mpr h), if_neg (not_lt.mpr hp.le), if_pos hfbz]

/-- Witness for the amended C2 on the `Ppr = 0` residual (`f z = z - 1`) at
the sign-changing bracket `[0.5, 1.2]`: both step conjuncts with hypotheses
fire, replacing the left endpoint and preserving the sign change. -/
theorem C2_bisection_step_witness :
    ((0 < residual_main 0 1 ((0.5 + 1.2) * 0.5) ∧
      bisectLoop (residual_main 0 1) epsilon_main 100 (99 + 1) 0 0.5 1.2 0 0 =
        bisectLoop (residual_main 0 1) epsilon_main 100 99 (0 + 1) 0.5 ((0.5 + 1.2) * 0.5)
          ((0.5 + 1.2) * 0.5) (|(1.2:ℝ) - 0.5|) ∧
      residual_main 0 1 0.5 < 0 ∧ 0 < residual_main 0 1 ((0.5 + 1.2) * 0.5)) ∨
     (residual_main 0 1 ((0.5 + 1.2) * 0.5) < 0 ∧
      bisectLoop (residual_main 0 1) epsilon_main 100 (99 + 1) 0 0.5 1.2 0 0 =
        bisectLoop (residual_main 0 1) epsilon_main 100 99 (0 + 1) ((0.5 + 1.2) * 0.5) 1.2
          ((0.5 + 1.2) * 0.5) (|(1.2:ℝ) - 0.5|) ∧
      residual_main 0 1 ((0.5 + 1.2) * 0.5) < 0 ∧ 0 < residual_main 0 1 1.2)) ∧
    ((bisectLoopFab (residual_main 0 1) epsilon_main 100 (99 + 1) 0 0.5 1.2
        (residual_main 0 1 0.5) (residual_main 0 1 1.2) 0 0 =
        bisectLoopFab (residual_main 0 1) epsilon_main 100 99 (0 + 1) 0.5 ((0.5 + 1.2) * 0.5)
          (residual_main 0 1 0.5) (residual_main 0 1 ((0.5 + 1.2) * 0.5))
          ((0.5 + 1.2) * 0.5) (|(1.2:ℝ) - 0.5|) ∧
      residual_main 0 1 0.5 * residual_main 0 1 ((0.5 + 1.2) * 0.5) < 0) ∨
     (bisectLoopFab (residual_main 0 1) epsilon_main 100 (99 + 1) 0 0.5 1.2
        (residual_main 0 1 0.5) (residual_main 0 1 1.2) 0 0 =
        bisectLoopFab (residual_main 0 1) epsilon_main 100 99 (0 + 1) ((0.5 + 1.2) * 0.5) 1.2
          (residual_main 0 1 ((0.5 + 1.2) * 0.5)) (residual_main 0 1 1.2)
          ((0.5 + 1.2) * 0.5) (|(1.2:ℝ) - 0.5|) ∧
      residual_main 0 1 ((0.5 + 1.2) * 0.5) * residual_main 0 1 1.2 < 0)) := by
  have habs : |(1.2:ℝ) - 0.5| = 0.7 := by
    rw [abs_of_pos (by norm_num : (0:ℝ) < 1.2 - 0.5)]
    norm_num
  have hw : epsilon_main < |(1.2:ℝ) - 0.5| := by
    rw [habs]
    norm_num [epsilon_main]
  have hA : residual_main 0 1 0.5 < 0 := by
    rw [residual_main_ppr0]
    norm_num
  have hB : 0 < residual_main 0 1 1.2 := by
    rw [residual_main_ppr0]
    norm_num
  have hne : residual_main 0 1 ((0.5 + 1.2) * 0.5) ≠ 0 := by
    rw [residual_main_ppr0]
    norm_num
  have hab : residual_main 0 1 0.5 * residual_main 0 1 1.2 < 0 := by
    rw [residual_main_ppr0, residual_main_ppr0]
    norm_num
  have hstep := C2_bisection_step (residual_main 0 1) epsilon_main 100 99 0 0.5 1.2 0 0
    (residual_main 0 1 0.5) (residual_main 0 1 1.2)
  exact ⟨hstep.2.2.2.2.1 hw hA hB hne, hstep.2.2.2.2.2 hw rfl rfl hab hne⟩

/-- C2, counterexample: at `Ppr = 100/9`, `Tpr = 1` the main.c loop runs (it
has no bracket check), its first iteration passes the width test, finds a
nonzero midpoint residual, replaces the endpoint `a` with the midpoint, and
the resulting bracket has same-sign residuals: no sign-changing bracket is
preserved, refuting the claim for this input. -/
theorem C2_counterexample :
    epsilon_main < |(1.3:ℝ) - 0.6| ∧
    residual_main (100 / 9) 1 ((0.6 + 1.3) * 0.5) < 0 ∧
    calcZfactor_DAK_main (100 / 9) 1 =
      bisectLoop (residual_main (100 / 9) 1) epsilon_main 100 99 (0 + 1)
        ((0.6 + 1.3) * 0.5) 1.3 ((0.6 + 1.3) * 0.5) (|(1.3:ℝ) - 0.6|) ∧
    residual_main (100 / 9) 1 ((0.6 + 1.3) * 0.5) * residual_main (100 / 9) 1 1.3 > 0 := by
  have habs : |(1.3:ℝ) - 0.6| = 0.7 := by
    rw [abs_of_pos (by norm_num : (0:ℝ) < 1.3 - 0.6)]
    norm_num
  have hw : epsilon_main < |(1.3:ℝ) - 0.6| := by
    rw [habs]
    norm_num [epsilon_main]
  have hmid : residual_main (100 / 9) 1 ((0.6 + 1.3) * 0.5) < 0 :=
    residual_main_neg_at _ (by norm_num)
  have hb : residual_main (100 / 9) 1 1.3 < 0 := residual_main_neg_at _ le_rfl
  refine ⟨hw, hmid, ?_, mul_pos_of_neg_of_neg hmid hb⟩
  show bisectLoop (residual_main (100 / 9) 1) epsilon_main 100 (99 + 1) 0 0.6 1.3 0 0 = _
  rw [bisectLoop_succ, if_neg (not_le.mpr hw), if_neg (not_lt.mpr hmid.le), if_pos hmid]

/-- C8, counterexample: the second part_000 `main` computes `Tpc` from rounded
decimal coefficients and `Ppr` from a rounded conversion factor, so its
results differ from the exact formulas of the spec (shown at `sg = 1`,
`P = 1`). -/
theorem C8_counterexample :
    Tpc_v2m 1 ≠ Tpc_specside 1 ∧ Ppr_of_v2m 1 1 ≠ Ppr_specside 1 1 := by
  constructor
  · unfold Tpc_v2m Tpc_specside
    norm_num
  · unfold Ppr_of_v2m Ppr_specside Ppc_v2m Ppc_specside
    norm_num

/-- C8, amended: the property computations of the first part_000 variant and
of the main.c test agree exactly with the spec formulas, and with each other,
for every input in the stated specific-gravity range. -/
theorem C8_pseudoreduced_exact (P T sg : ℝ) (hlo : 0.57 < sg) (hhi : sg < 1.68) :
    Ppc_v1 sg = Ppc_specside sg ∧ Tpc_v1 sg = Tpc_specside sg ∧
    Ppr_of_v1 P sg = Ppr_specside P sg ∧ Tpr_of_v1 T sg = Tpr_specside T sg ∧
    Ppc_maintest sg = Ppc_specside sg ∧ Tpc_maintest sg = Tpc_specside sg ∧
    Ppr_of_maintest P sg = Ppr_specside P sg ∧
    Tpr_of_maintest T sg = Tpr_specside T sg ∧
    Ppr_of_maintest P sg = Ppr_of_v1 P sg ∧ Tpr_of_maintest T sg = Tpr_of_v1 T sg := by
  simp only [Ppc_v1, Tpc_v1, Ppr_of_v1, Tpr_of_v1, Ppc_maintest, Tpc_maintest,
    Ppr_of_maintest, Tpr_of_maintest, Ppc_specside, Tpc_specside, Ppr_specside,
    Tpr_specside]
  refine ⟨?_, ?_, ?_, ?_, ?_, ?_, ?_, ?_, ?_, ?_⟩ <;> ring

/-- Witness for the amended C8 at `sg = 0.666`, `P = 1` atm, `T = 20` °C. -/
theorem C8_pseudoreduced_exact_witness :
    (0.57:ℝ) < 0.666 ∧ (0.666:ℝ) < 1.68 ∧
    (Ppc_v1 0.666 = Ppc_specside 0.666 ∧ Tpc_v1 0.666 = Tpc_specside 0.666 ∧
     Ppr_of_v1 1 0.666 = Ppr_specside 1 0.666 ∧ Tpr_of_v1 20 0.666 = Tpr_specside 20 0.666 ∧
     Ppc_maintest 0.666 = Ppc_specside 0.666 ∧ Tpc_maintest 0.666 = Tpc_specside 0.666 ∧
     Ppr_of_maintest 1 0.666 = Ppr_specside 1 0.666 ∧
     Tpr_of_maintest 20 0.666 = Tpr_specside 20 0.666 ∧
     Ppr_of_maintest 1 0.666 = Ppr_of_v1 1 0.666 ∧
     Tpr_of_maintest 20 0.666 = Tpr_of_v1 20 0.666) := by
  refine ⟨by norm_num, by norm_num, ?_⟩
  exact C8_pseudoreduced_exact 1 20 0.666 (by norm_num) (by norm_num)

end ZFDAK

end
